import Mathlib

/-!
Verification of the payment transaction engine.

Shallow embedding of the repository sources:
  - src/types.rs   : TxType, Transaction, Account
  - src/account.rs : SimpleManager and its ledger operations
  - src/engine.rs  : Engine.process / process_all

Modelling choices:
  - rust_decimal Decimal is a 96-bit signed integer mantissa with a scale.
    The program only adds, subtracts and compares amounts, never multiplies
    or divides, so amounts are modelled as integers (the mantissa at a
    common scale); every representable value v satisfies -Dmax <= v <= Dmax
    with Dmax = 2 ^ 96 - 1.  checked_add is exact addition that fails when
    the magnitude of the result exceeds Dmax, matching rust_decimal on
    amounts of a common scale (which is what the CSV input produces; the
    claims do not depend on cross-scale rounding).
  - rust_decimal is_sign_positive is true exactly when the sign flag is
    clear; the ordinary zero has a clear sign flag, so the check is
    modelled as 0 <= amount.  (A negatively signed zero is not
    representable here; no claim depends on it.)
  - HashMap is modelled as a function to Option, which captures exactly the
    get / get_mut / insert / contains_key behaviour the code uses.
  - anyhow errors are modelled by the inductive Err, one constructor per
    anyhow! site reachable in the embedded code.  The engine matches on the
    transaction type, whose Rust enum (src/types.rs) has exactly the five
    variants below, so the catch-all "Unsupported transaction type" arm is
    unreachable and has no constructor here.
-/

abbrev ClientId := Nat

abbrev TxId := Nat

/-- Largest mantissa magnitude representable by rust_decimal: 2 ^ 96 - 1. -/
def Dmax : ℤ := 79228162514264337593543950335

/-- src/types.rs TxType. -/
inductive TxType
  | deposit
  | withdrawal
  | dispute
  | resolve
  | chargeback
deriving DecidableEq, Repr

/-- src/types.rs Transaction. -/
structure Transaction where
  tx_type : TxType
  client_id : ClientId
  tx_id : TxId
  amount : ℤ
deriving DecidableEq, Repr

/-- src/types.rs Account; Account::new gives is_locked = false and zero balances. -/
structure Account where
  client_id : ClientId
  is_locked : Bool
  available_amount : ℤ
  held_amount : ℤ
deriving DecidableEq, Repr

def Account.new (client_id : ClientId) : Account :=
  { client_id := client_id, is_locked := false, available_amount := 0, held_amount := 0 }

/-- One constructor per anyhow! message in the embedded code. -/
inductive Err
  | invalidAmount
  | overflow
  | insufficientAvailable
  | insufficientHeld
  | accountNotFound (c : ClientId)
  | txWrongClient (t : TxId) (c : ClientId)
deriving DecidableEq, Repr

instance exceptDecEq {e a : Type} [DecidableEq e] [DecidableEq a] : DecidableEq (Except e a) :=
  fun x y =>
    match x, y with
    | Except.ok u, Except.ok v =>
      if h : u = v then Decidable.isTrue (by rw [h]) else Decidable.isFalse (by simp [h])
    | Except.error u, Except.error v =>
      if h : u = v then Decidable.isTrue (by rw [h]) else Decidable.isFalse (by simp [h])
    | Except.ok _, Except.error _ => Decidable.isFalse (by simp)
    | Except.error _, Except.ok _ => Decidable.isFalse (by simp)

/-- src/account.rs check_positive: ok iff amount.is_sign_positive(). -/
def check_positive (amount : ℤ) : Except Err Unit :=
  if 0 ≤ amount then Except.ok () else Except.error Err.invalidAmount

/-- rust_decimal checked_add: none when the result does not fit in a Decimal. -/
def checked_add (a b : ℤ) : Option ℤ :=
  if -Dmax ≤ a + b ∧ a + b ≤ Dmax then some (a + b) else none

/-- src/account.rs SimpleManager: a map from client id to account. -/
structure SimpleManager where
  accounts : ClientId → Option Account

def SimpleManager.new : SimpleManager := ⟨fun _ => none⟩

/-- Store the given account under the given client id (the effect of
mutating through get_mut, or of HashMap::insert). -/
def SimpleManager.updateAccount (m : SimpleManager) (c : ClientId) (acc : Account) :
    SimpleManager :=
  ⟨fun c2 => if c2 = c then some acc else m.accounts c2⟩

/-- src/account.rs ensure_account (it always returns Ok in the source, so the
result type carries no error). -/
def SimpleManager.ensure_account (m : SimpleManager) (c : ClientId) : SimpleManager :=
  match m.accounts c with
  | some _ => m
  | none => m.updateAccount c (Account.new c)

/-- src/account.rs deposit. -/
def SimpleManager.deposit (m : SimpleManager) (c : ClientId) (amount : ℤ) :
    Except Err SimpleManager :=
  match check_positive amount with
  | Except.error e => Except.error e
  | Except.ok _ =>
    match m.accounts c with
    | some acc =>
      match checked_add acc.available_amount amount with
      | some newAmount =>
        Except.ok (m.updateAccount c { acc with available_amount := newAmount })
      | none => Except.error Err.overflow
    | none => Except.error (Err.accountNotFound c)

/-- src/account.rs withdraw. -/
def SimpleManager.withdraw (m : SimpleManager) (c : ClientId) (amount : ℤ) :
    Except Err SimpleManager :=
  match check_positive amount with
  | Except.error e => Except.error e
  | Except.ok _ =>
    match m.accounts c with
    | some acc =>
      if acc.available_amount - amount < 0 then Except.error Err.insufficientAvailable
      else
        Except.ok (m.updateAccount c
          { acc with available_amount := acc.available_amount - amount })
    | none => Except.error (Err.accountNotFound c)

/-- src/account.rs withdraw_held. -/
def SimpleManager.withdraw_held (m : SimpleManager) (c : ClientId) (amount : ℤ) :
    Except Err SimpleManager :=
  match check_positive amount with
  | Except.error e => Except.error e
  | Except.ok _ =>
    match m.accounts c with
    | some acc =>
      if acc.held_amount - amount < 0 then Except.error Err.insufficientHeld
      else
        Except.ok (m.updateAccount c
          { acc with held_amount := acc.held_amount - amount })
    | none => Except.error (Err.accountNotFound c)

/-- src/account.rs hold. -/
def SimpleManager.hold (m : SimpleManager) (c : ClientId) (amount : ℤ) :
    Except Err SimpleManager :=
  match check_positive amount with
  | Except.error e => Except.error e
  | Except.ok _ =>
    match m.accounts c with
    | some acc =>
      if acc.available_amount - amount < 0 then Except.error Err.insufficientAvailable
      else
        match checked_add acc.held_amount amount with
        | some newHeld =>
          Except.ok (m.updateAccount c
            { acc with available_amount := acc.available_amount - amount,
                       held_amount := newHeld })
        | none => Except.error Err.overflow
    | none => Except.error (Err.accountNotFound c)

/-- src/account.rs release. -/
def SimpleManager.release (m : SimpleManager) (c : ClientId) (amount : ℤ) :
    Except Err SimpleManager :=
  match check_positive amount with
  | Except.error e => Except.error e
  | Except.ok _ =>
    match m.accounts c with
    | some acc =>
      if acc.held_amount - amount < 0 then Except.error Err.insufficientHeld
      else
        match checked_add acc.available_amount amount with
        | some newAvail =>
          Except.ok (m.updateAccount c
            { acc with available_amount := newAvail,
                       held_amount := acc.held_amount - amount })
        | none => Except.error Err.overflow
    | none => Except.error (Err.accountNotFound c)

/-- src/account.rs lock. -/
def SimpleManager.lock (m : SimpleManager) (c : ClientId) : Except Err SimpleManager :=
  match m.accounts c with
  | some acc => Except.ok (m.updateAccount c { acc with is_locked := true })
  | none => Except.error (Err.accountNotFound c)

/-- src/account.rs is_locked. -/
def SimpleManager.is_locked (m : SimpleManager) (c : ClientId) : Except Err Bool :=
  match m.accounts c with
  | some acc => Except.ok acc.is_locked
  | none => Except.error (Err.accountNotFound c)

/-- src/engine.rs Engine: an account manager plus the transaction history map. -/
structure Engine where
  accounts : SimpleManager
  transactions : TxId → Option Transaction

def Engine.new (accounts : SimpleManager) : Engine := ⟨accounts, fun _ => none⟩

/-- src/engine.rs get_client_tx. -/
def Engine.get_client_tx (e : Engine) (client_id : ClientId) (tx_id : TxId) :
    Except Err (Option Transaction) :=
  match e.transactions tx_id with
  | some tx =>
    if tx.client_id = client_id then Except.ok (some tx)
    else Except.error (Err.txWrongClient tx_id client_id)
  | none => Except.ok none

/-- HashMap::insert on the history map. -/
def Engine.recordTx (e : Engine) (tx : Transaction) : Engine :=
  ⟨e.accounts, fun t => if t = tx.tx_id then some tx else e.transactions t⟩

/-- src/engine.rs process.  Returns the new engine state together with the
result the Rust method returns; on an error the state component is the state
at the point of the early return, exactly as the Rust mutations leave it. -/
def Engine.process (e : Engine) (tx : Transaction) : Engine × Except Err Unit :=
  let e1 : Engine := ⟨e.accounts.ensure_account tx.client_id, e.transactions⟩
  match e1.accounts.is_locked tx.client_id with
  | Except.error err => (e1, Except.error err)
  | Except.ok true => (e1, Except.ok ())
  | Except.ok false =>
    match tx.tx_type with
    | TxType.deposit =>
      let e2 := e1.recordTx tx
      match e2.accounts.deposit tx.client_id tx.amount with
      | Except.ok m => (⟨m, e2.transactions⟩, Except.ok ())
      | Except.error err => (e2, Except.error err)
    | TxType.withdrawal =>
      let e2 := e1.recordTx tx
      match e2.accounts.withdraw tx.client_id tx.amount with
      | Except.ok m => (⟨m, e2.transactions⟩, Except.ok ())
      | Except.error err => (e2, Except.error err)
    | TxType.dispute =>
      match e1.get_client_tx tx.client_id tx.tx_id with
      | Except.error err => (e1, Except.error err)
      | Except.ok none => (e1, Except.ok ())
      | Except.ok (some htx) =>
        match e1.accounts.hold htx.client_id htx.amount with
        | Except.ok m => (⟨m, e1.transactions⟩, Except.ok ())
        | Except.error err => (e1, Except.error err)
    | TxType.resolve =>
      match e1.get_client_tx tx.client_id tx.tx_id with
      | Except.error err => (e1, Except.error err)
      | Except.ok none => (e1, Except.ok ())
      | Except.ok (some htx) =>
        match e1.accounts.release htx.client_id htx.amount with
        | Except.ok m => (⟨m, e1.transactions⟩, Except.ok ())
        | Except.error err => (e1, Except.error err)
    | TxType.chargeback =>
      match e1.get_client_tx tx.client_id tx.tx_id with
      | Except.error err => (e1, Except.error err)
      | Except.ok none => (e1, Except.ok ())
      | Except.ok (some htx) =>
        match e1.accounts.withdraw_held htx.client_id htx.amount with
        | Except.error err => (e1, Except.error err)
        | Except.ok m =>
          match m.lock htx.client_id with
          | Except.error err => (⟨m, e1.transactions⟩, Except.error err)
          | Except.ok m2 => (⟨m2, e1.transactions⟩, Except.ok ())

/-- src/engine.rs process_all: each transaction is processed in order and a
failing one only logs, leaving the engine state it produced. -/
def Engine.processAll (e : Engine) (txs : List Transaction) : Engine :=
  txs.foldl (fun acc tx => (acc.process tx).1) e

/-- The ledger operations of the account.rs Manager trait, as data, so that
arbitrary operation sequences can be quantified over. -/
inductive LedgerOp
  | deposit (c : ClientId) (a : ℤ)
  | withdraw (c : ClientId) (a : ℤ)
  | withdraw_held (c : ClientId) (a : ℤ)
  | hold (c : ClientId) (a : ℤ)
  | release (c : ClientId) (a : ℤ)
  | ensure (c : ClientId)
  | lock (c : ClientId)
deriving DecidableEq, Repr

def applyOp (m : SimpleManager) : LedgerOp → Except Err SimpleManager
  | LedgerOp.deposit c a => m.deposit c a
  | LedgerOp.withdraw c a => m.withdraw c a
  | LedgerOp.withdraw_held c a => m.withdraw_held c a
  | LedgerOp.hold c a => m.hold c a
  | LedgerOp.release c a => m.release c a
  | LedgerOp.ensure c => Except.ok (m.ensure_account c)
  | LedgerOp.lock c => m.lock c

/-- Run one ledger operation; a failing operation leaves the state unchanged,
as the Rust methods return early without mutating. -/
def stepOp (m : SimpleManager) (op : LedgerOp) : SimpleManager :=
  match applyOp m op with
  | Except.ok m2 => m2
  | Except.error _ => m

def runOps (ops : List LedgerOp) : SimpleManager :=
  ops.foldl stepOp SimpleManager.new

/-- The balance invariant of one account. -/
def AccInv (a : Account) : Prop :=
  0 ≤ a.available_amount ∧ 0 ≤ a.held_amount

/-- Every stored account satisfies the balance invariant. -/
def managerInv (m : SimpleManager) : Prop :=
  ∀ c a, m.accounts c = some a → AccInv a

/-- Whether an Except is a success. -/
def exceptIsOk {a : Type} (r : Except Err a) : Bool :=
  match r with
  | Except.ok _ => true
  | Except.error _ => false

/-! Concrete fixtures used by the witness theorems below. -/
def accTen : Account := ⟨1, false, 10, 2⟩

def accLockedFix : Account := ⟨2, true, 6, 1⟩

def mFix : SimpleManager :=
  ⟨fun c => if c = 1 then some accTen else if c = 2 then some accLockedFix else none⟩

def txDepFix : Transaction := ⟨TxType.deposit, 1, 1, 4⟩

def txDepFix2 : Transaction := ⟨TxType.deposit, 1, 2, 2⟩

def eFix : Engine :=
  ⟨mFix, fun t => if t = 1 then some txDepFix else if t = 2 then some txDepFix2 else none⟩
def c9CexEngine : Engine :=
  (Engine.new SimpleManager.new).processAll
    [⟨TxType.deposit, 1, 1, 1⟩, ⟨TxType.dispute, 1, 1, 0⟩, ⟨TxType.deposit, 1, 2, Dmax⟩]

lemma check_positive_ok_iff {a : ℤ} {u : Unit} :
    check_positive a = Except.ok u ↔ 0 ≤ a := by
  unfold check_positive
  split <;> simp_all

lemma checked_add_eq_some {a b s : ℤ} :
    checked_add a b = some s ↔ -Dmax ≤ a + b ∧ a + b ≤ Dmax ∧ s = a + b := by
  unfold checked_add
  split <;> simp_all [eq_comm]

lemma updateAccount_self (m : SimpleManager) (c : ClientId) (acc : Account) :
    (m.updateAccount c acc).accounts c = some acc := by
  simp [SimpleManager.updateAccount]

lemma updateAccount_other (m : SimpleManager) (c c2 : ClientId) (acc : Account)
    (h : c2 ≠ c) : (m.updateAccount c acc).accounts c2 = m.accounts c2 := by
  simp [SimpleManager.updateAccount, h]

lemma deposit_ok_inv {m m2 : SimpleManager} {c : ClientId} {a : ℤ}
    (h : m.deposit c a = Except.ok m2) :
    0 ≤ a ∧ ∃ acc, m.accounts c = some acc ∧
      -Dmax ≤ acc.available_amount + a ∧ acc.available_amount + a ≤ Dmax ∧
      m2 = m.updateAccount c { acc with available_amount := acc.available_amount + a } := by
  unfold SimpleManager.deposit at h
  split at h
  · cases h
  next u heq =>
    have hpos : 0 ≤ a := check_positive_ok_iff.mp heq
    refine ⟨hpos, ?_⟩
    split at h
    next acc hacc =>
      split at h
      next v hadd =>
        obtain ⟨h1, h2, h3⟩ := checked_add_eq_some.mp hadd
        cases h
        exact ⟨acc, hacc, h1, h2, by rw [h3]⟩
      · cases h
    · cases h

lemma withdraw_ok_inv {m m2 : SimpleManager} {c : ClientId} {a : ℤ}
    (h : m.withdraw c a = Except.ok m2) :
    0 ≤ a ∧ ∃ acc, m.accounts c = some acc ∧
      0 ≤ acc.available_amount - a ∧
      m2 = m.updateAccount c { acc with available_amount := acc.available_amount - a } := by
  unfold SimpleManager.withdraw at h
  split at h
  · cases h
  next u heq =>
    have hpos : 0 ≤ a := check_positive_ok_iff.mp heq
    refine ⟨hpos, ?_⟩
    split at h
    next acc hacc =>
      split at h
      · cases h
      next hge =>
        cases h
        exact ⟨acc, hacc, by omega, rfl⟩
    · cases h

lemma withdraw_held_ok_inv {m m2 : SimpleManager} {c : ClientId} {a : ℤ}
    (h : m.withdraw_held c a = Except.ok m2) :
    0 ≤ a ∧ ∃ acc, m.accounts c = some acc ∧
      0 ≤ acc.held_amount - a ∧
      m2 = m.updateAccount c { acc with held_amount := acc.held_amount - a } := by
  unfold SimpleManager.withdraw_held at h
  split at h
  · cases h
  next u heq =>
    have hpos : 0 ≤ a := check_positive_ok_iff.mp heq
    refine ⟨hpos, ?_⟩
    split at h
    next acc hacc =>
      split at h
      · cases h
      next hge =>
        cases h
        exact ⟨acc, hacc, by omega, rfl⟩
    · cases h

lemma hold_ok_inv {m m2 : SimpleManager} {c : ClientId} {a : ℤ}
    (h : m.hold c a = Except.ok m2) :
    0 ≤ a ∧ ∃ acc, m.accounts c = some acc ∧
      0 ≤ acc.available_amount - a ∧
      -Dmax ≤ acc.held_amount + a ∧ acc.held_amount + a ≤ Dmax ∧
      m2 = m.updateAccount c { acc with available_amount := acc.available_amount - a,
                                        held_amount := acc.held_amount + a } := by
  unfold SimpleManager.hold at h
  split at h
  · cases h
  next u heq =>
    have hpos : 0 ≤ a := check_positive_ok_iff.mp heq
    refine ⟨hpos, ?_⟩
    split at h
    next acc hacc =>
      split at h
      · cases h
      next hge =>
        split at h
        next v hadd =>
          obtain ⟨h1, h2, h3⟩ := checked_add_eq_some.mp hadd
          cases h
          exact ⟨acc, hacc, by omega, h1, h2, by rw [h3]⟩
        · cases h
    · cases h

lemma release_ok_inv {m m2 : SimpleManager} {c : ClientId} {a : ℤ}
    (h : m.release c a = Except.ok m2) :
    0 ≤ a ∧ ∃ acc, m.accounts c = some acc ∧
      0 ≤ acc.held_amount - a ∧
      -Dmax ≤ acc.available_amount + a ∧ acc.available_amount + a ≤ Dmax ∧
      m2 = m.updateAccount c { acc with available_amount := acc.available_amount + a,
                                        held_amount := acc.held_amount - a } := by
  unfold SimpleManager.release at h
  split at h
  · cases h
  next u heq =>
    have hpos : 0 ≤ a := check_positive_ok_iff.mp heq
    refine ⟨hpos, ?_⟩
    split at h
    next acc hacc =>
      split at h
      · cases h
      next hge =>
        split at h
        next v hadd =>
          obtain ⟨h1, h2, h3⟩ := checked_add_eq_some.mp hadd
          cases h
          exact ⟨acc, hacc, by omega, h1, h2, by rw [h3]⟩
        · cases h
    · cases h

lemma lock_ok_inv {m m2 : SimpleManager} {c : ClientId}
    (h : m.lock c = Except.ok m2) :
    ∃ acc, m.accounts c = some acc ∧
      m2 = m.updateAccount c { acc with is_locked := true } := by
  unfold SimpleManager.lock at h
  split at h
  next acc hacc =>
    cases h
    exact ⟨acc, hacc, rfl⟩
  · cases h

lemma managerInv_update {m : SimpleManager} {c : ClientId} {acc : Account}
    (hm : managerInv m) (hacc : AccInv acc) : managerInv (m.updateAccount c acc) := by
  intro c2 a2 h2
  by_cases hc : c2 = c
  · rw [hc, updateAccount_self] at h2
    cases h2
    exact hacc
  · rw [updateAccount_other m c c2 acc hc] at h2
    exact hm c2 a2 h2

lemma managerInv_ensure {m : SimpleManager} (hm : managerInv m) (c : ClientId) :
    managerInv (m.ensure_account c) := by
  unfold SimpleManager.ensure_account
  split
  · exact hm
  · exact managerInv_update hm (by constructor <;> simp [Account.new])

lemma stepOp_preserves_inv {m : SimpleManager} (hm : managerInv m) (op : LedgerOp) :
    managerInv (stepOp m op) := by
  unfold stepOp
  cases hop : applyOp m op with
  | error e => exact hm
  | ok m2 =>
    cases op with
    | deposit c a =>
      obtain ⟨hpos, acc, hacc, h1, h2, hm2⟩ := deposit_ok_inv hop
      obtain ⟨hav, hhd⟩ := hm c acc hacc
      subst hm2
      exact managerInv_update hm ⟨by simpa using by omega, by simpa using hhd⟩
    | withdraw c a =>
      obtain ⟨hpos, acc, hacc, h1, hm2⟩ := withdraw_ok_inv hop
      obtain ⟨hav, hhd⟩ := hm c acc hacc
      subst hm2
      exact managerInv_update hm ⟨by simpa using h1, by simpa using hhd⟩
    | withdraw_held c a =>
      obtain ⟨hpos, acc, hacc, h1, hm2⟩ := withdraw_held_ok_inv hop
      obtain ⟨hav, hhd⟩ := hm c acc hacc
      subst hm2
      exact managerInv_update hm ⟨by simpa using hav, by simpa using h1⟩
    | hold c a =>
      obtain ⟨hpos, acc, hacc, h1, h2, h3, hm2⟩ := hold_ok_inv hop
      obtain ⟨hav, hhd⟩ := hm c acc hacc
      subst hm2
      exact managerInv_update hm ⟨by simpa using h1, by simpa using by omega⟩
    | release c a =>
      obtain ⟨hpos, acc, hacc, h1, h2, h3, hm2⟩ := release_ok_inv hop
      obtain ⟨hav, hhd⟩ := hm c acc hacc
      subst hm2
      exact managerInv_update hm ⟨by simpa using by omega, by simpa using h1⟩
    | ensure c =>
      cases hop
      exact managerInv_ensure hm c
    | lock c =>
      obtain ⟨acc, hacc, hm2⟩ := lock_ok_inv hop
      obtain ⟨hav, hhd⟩ := hm c acc hacc
      subst hm2
      exact managerInv_update hm ⟨by simpa using hav, by simpa using hhd⟩

lemma foldl_stepOp_inv {m : SimpleManager} (hm : managerInv m) (ops : List LedgerOp) :
    managerInv (ops.foldl stepOp m) := by
  induction ops generalizing m with
  | nil => exact hm
  | cons op ops ih => exact ih (stepOp_preserves_inv hm op)

lemma managerInv_new : managerInv SimpleManager.new := by
  intro c a h
  cases h

lemma ensure_account_of_some {m : SimpleManager} {c : ClientId} {acc : Account}
    (h : m.accounts c = some acc) : m.ensure_account c = m := by
  unfold SimpleManager.ensure_account
  rw [h]

lemma ensure_account_of_none {m : SimpleManager} {c : ClientId}
    (h : m.accounts c = none) :
    m.ensure_account c = m.updateAccount c (Account.new c) := by
  unfold SimpleManager.ensure_account
  rw [h]

lemma ensure_account_lookup_self (m : SimpleManager) (c : ClientId) :
    (m.ensure_account c).accounts c = some ((m.accounts c).getD (Account.new c)) := by
  unfold SimpleManager.ensure_account
  cases h : m.accounts c <;> simp [h, updateAccount_self]

lemma ensure_account_preserves {m : SimpleManager} {c c2 : ClientId} {acc : Account}
    (h : m.accounts c2 = some acc) : (m.ensure_account c).accounts c2 = some acc := by
  unfold SimpleManager.ensure_account
  cases h2 : m.accounts c with
  | some a => exact h
  | none =>
    by_cases hc : c2 = c
    · rw [hc] at h
      rw [h] at h2
      cases h2
    · rw [updateAccount_other m c c2 (Account.new c) hc]
      exact h

lemma is_locked_ensure (m : SimpleManager) (c : ClientId) :
    (m.ensure_account c).is_locked c =
      Except.ok ((m.accounts c).getD (Account.new c)).is_locked := by
  unfold SimpleManager.is_locked
  rw [ensure_account_lookup_self]

lemma process_locked {e : Engine} {tx : Transaction} {acc : Account}
    (hacc : e.accounts.accounts tx.client_id = some acc) (hl : acc.is_locked = true) :
    e.process tx = (e, Except.ok ()) := by
  unfold Engine.process
  rw [ensure_account_of_some hacc]
  simp only [SimpleManager.is_locked, hacc, hl]

lemma process_deposit_unlocked {e : Engine} {tx : Transaction} {acc : Account}
    (hacc : e.accounts.accounts tx.client_id = some acc) (hl : acc.is_locked = false)
    (ht : tx.tx_type = TxType.deposit) :
    e.process tx =
      match (e.recordTx tx).accounts.deposit tx.client_id tx.amount with
      | Except.ok m => (⟨m, (e.recordTx tx).transactions⟩, Except.ok ())
      | Except.error err => (e.recordTx tx, Except.error err) := by
  unfold Engine.process
  rw [ensure_account_of_some hacc]
  simp only [SimpleManager.is_locked, hacc, hl, ht]

lemma process_withdrawal_unlocked {e : Engine} {tx : Transaction} {acc : Account}
    (hacc : e.accounts.accounts tx.client_id = some acc) (hl : acc.is_locked = false)
    (ht : tx.tx_type = TxType.withdrawal) :
    e.process tx =
      match (e.recordTx tx).accounts.withdraw tx.client_id tx.amount with
      | Except.ok m => (⟨m, (e.recordTx tx).transactions⟩, Except.ok ())
      | Except.error err => (e.recordTx tx, Except.error err) := by
  unfold Engine.process
  rw [ensure_account_of_some hacc]
  simp only [SimpleManager.is_locked, hacc, hl, ht]

lemma process_dispute_found {e : Engine} {tx htx : Transaction} {acc : Account}
    (hacc : e.accounts.accounts tx.client_id = some acc) (hl : acc.is_locked = false)
    (ht : tx.tx_type = TxType.dispute)
    (hfind : e.transactions tx.tx_id = some htx) (hcl : htx.client_id = tx.client_id) :
    e.process tx =
      match e.accounts.hold tx.client_id htx.amount with
      | Except.ok m => (⟨m, e.transactions⟩, Except.ok ())
      | Except.error err => (e, Except.error err) := by
  unfold Engine.process
  rw [ensure_account_of_some hacc]
  simp only [SimpleManager.is_locked, hacc, hl, ht, Engine.get_client_tx, hfind, hcl, if_true]

lemma process_resolve_found {e : Engine} {tx htx : Transaction} {acc : Account}
    (hacc : e.accounts.accounts tx.client_id = some acc) (hl : acc.is_locked = false)
    (ht : tx.tx_type = TxType.resolve)
    (hfind : e.transactions tx.tx_id = some htx) (hcl : htx.client_id = tx.client_id) :
    e.process tx =
      match e.accounts.release tx.client_id htx.amount with
      | Except.ok m => (⟨m, e.transactions⟩, Except.ok ())
      | Except.error err => (e, Except.error err) := by
  unfold Engine.process
  rw [ensure_account_of_some hacc]
  simp only [SimpleManager.is_locked, hacc, hl, ht, Engine.get_client_tx, hfind, hcl, if_true]

lemma process_chargeback_found {e : Engine} {tx htx : Transaction} {acc : Account}
    (hacc : e.accounts.accounts tx.client_id = some acc) (hl : acc.is_locked = false)
    (ht : tx.tx_type = TxType.chargeback)
    (hfind : e.transactions tx.tx_id = some htx) (hcl : htx.client_id = tx.client_id) :
    e.process tx =
      match e.accounts.withdraw_held tx.client_id htx.amount with
      | Except.error err => (e, Except.error err)
      | Except.ok m =>
        match m.lock tx.client_id with
        | Except.error err => (⟨m, e.transactions⟩, Except.error err)
        | Except.ok m2 => (⟨m2, e.transactions⟩, Except.ok ()) := by
  unfold Engine.process
  rw [ensure_account_of_some hacc]
  simp only [SimpleManager.is_locked, hacc, hl, ht, Engine.get_client_tx, hfind, hcl, if_true]

lemma process_ref_notfound {e : Engine} {tx : Transaction}
    (hnone : e.transactions tx.tx_id = none)
    (ht : tx.tx_type = TxType.dispute ∨ tx.tx_type = TxType.resolve ∨
          tx.tx_type = TxType.chargeback) :
    e.process tx =
      (⟨e.accounts.ensure_account tx.client_id, e.transactions⟩, Except.ok ()) := by
  unfold Engine.process
  simp only [is_locked_ensure]
  cases hb : ((e.accounts.accounts tx.client_id).getD (Account.new tx.client_id)).is_locked
  · rcases ht with ht | ht | ht <;>
      simp only [hb, ht, Engine.get_client_tx, hnone]
  · simp only [hb]

lemma withdraw_held_fail {m : SimpleManager} {c : ClientId} {a : ℤ} {acc : Account}
    (hacc : m.accounts c = some acc)
    (hfail : a < 0 ∨ acc.held_amount - a < 0) :
    ∃ err, m.withdraw_held c a = Except.error err := by
  unfold SimpleManager.withdraw_held check_positive
  by_cases hp : 0 ≤ a
  · rcases hfail with h | h
    · omega
    · rw [if_pos hp]
      simp [hacc, h]
  · rw [if_neg hp]
    exact ⟨Err.invalidAmount, rfl⟩

lemma withdraw_held_ok {m : SimpleManager} {c : ClientId} {a : ℤ} {acc : Account}
    (hacc : m.accounts c = some acc) (hp : 0 ≤ a) (hheld : 0 ≤ acc.held_amount - a) :
    m.withdraw_held c a =
      Except.ok (m.updateAccount c { acc with held_amount := acc.held_amount - a }) := by
  unfold SimpleManager.withdraw_held check_positive
  rw [if_pos hp]
  simp [hacc, show ¬acc.held_amount - a < 0 by omega]

lemma release_ok {m : SimpleManager} {c : ClientId} {a : ℤ} {acc : Account}
    (hacc : m.accounts c = some acc) (hp : 0 ≤ a) (hheld : 0 ≤ acc.held_amount - a)
    (hlo : -Dmax ≤ acc.available_amount + a) (hhi : acc.available_amount + a ≤ Dmax) :
    m.release c a =
      Except.ok (m.updateAccount c
        { acc with available_amount := acc.available_amount + a,
                   held_amount := acc.held_amount - a }) := by
  unfold SimpleManager.release check_positive checked_add
  rw [if_pos hp]
  simp [hacc, show ¬acc.held_amount - a < 0 by omega, hlo, hhi]

lemma hold_ok {m : SimpleManager} {c : ClientId} {a : ℤ} {acc : Account}
    (hacc : m.accounts c = some acc) (hp : 0 ≤ a) (hav : 0 ≤ acc.available_amount - a)
    (hlo : -Dmax ≤ acc.held_amount + a) (hhi : acc.held_amount + a ≤ Dmax) :
    m.hold c a =
      Except.ok (m.updateAccount c
        { acc with available_amount := acc.available_amount - a,
                   held_amount := acc.held_amount + a }) := by
  unfold SimpleManager.hold check_positive checked_add
  rw [if_pos hp]
  simp [hacc, show ¬acc.available_amount - a < 0 by omega, hlo, hhi]

lemma lock_ok {m : SimpleManager} {c : ClientId} {acc : Account}
    (hacc : m.accounts c = some acc) :
    m.lock c = Except.ok (m.updateAccount c { acc with is_locked := true }) := by
  unfold SimpleManager.lock
  rw [hacc]

lemma process_amount_irrelevant (e : Engine) (tx : Transaction) (a2 : ℤ)
    (ht : tx.tx_type = TxType.dispute ∨ tx.tx_type = TxType.resolve ∨
          tx.tx_type = TxType.chargeback) :
    e.process { tx with amount := a2 } = e.process tx := by
  obtain ⟨tt, c, t, a⟩ := tx
  unfold Engine.process
  cases hb : (e.accounts.ensure_account c).is_locked c with
  | error err => simp only [hb]
  | ok b =>
    cases b with
    | true => simp only [hb]
    | false =>
      rcases ht with ht | ht | ht <;> simp only at ht <;> subst ht <;> simp only [hb]


/-- C1: starting from a fresh manager, after any sequence of ledger operations every
account satisfies available_amount >= 0 and held_amount >= 0; moreover any ledger
operation that returns an error leaves the manager exactly unchanged (no clamping). -/
theorem c1_balances_never_negative (ops : List LedgerOp) :
    managerInv (runOps ops) ∧
      ∀ (m : SimpleManager) (op : LedgerOp) (err : Err),
        applyOp m op = Except.error err → stepOp m op = m := by
  refine ⟨?_, ?_⟩
  · unfold runOps
    exact foldl_stepOp_inv managerInv_new ops
  · intro m op err h
    unfold stepOp
    rw [h]

/-- C1 witness: a concrete run in which a withdrawal is refused. -/
theorem c1_balances_never_negative_witness :
    managerInv (runOps [LedgerOp.ensure 1, LedgerOp.deposit 1 10, LedgerOp.hold 1 3,
      LedgerOp.withdraw 1 20]) :=
  (c1_balances_never_negative _).1

/-- C3 counterexample: the claim says an amount of exactly zero is rejected with
InvalidAmount, but check_positive accepts the (sign-positive) zero, so a zero
deposit and a zero withdrawal on an existing account both succeed. -/
theorem c3_counterexample :
    exceptIsOk (mFix.deposit 1 0) = true ∧ exceptIsOk (mFix.withdraw 1 0) = true := by
  decide

/-- C3 (amended): deposit and withdraw reject an amount strictly below zero with
InvalidAmount and leave the manager unchanged; an amount of exactly zero passes
check_positive (rust_decimal treats the plain zero as sign-positive, as the
test on check_positive in the repository asserts) and is processed normally. -/
theorem c3_negative_amount_rejected (m : SimpleManager) (c : ClientId) (a : ℤ)
    (ha : a < 0) :
    m.deposit c a = Except.error Err.invalidAmount ∧
    m.withdraw c a = Except.error Err.invalidAmount ∧
    stepOp m (LedgerOp.deposit c a) = m ∧
    stepOp m (LedgerOp.withdraw c a) = m := by
  have hcp : check_positive a = Except.error Err.invalidAmount := by
    unfold check_positive
    rw [if_neg (by omega)]
  have hd : m.deposit c a = Except.error Err.invalidAmount := by
    unfold SimpleManager.deposit
    rw [hcp]
  have hw : m.withdraw c a = Except.error Err.invalidAmount := by
    unfold SimpleManager.withdraw
    rw [hcp]
  refine ⟨hd, hw, ?_, ?_⟩ <;> unfold stepOp applyOp <;> simp only [hd, hw]

/-- C3 witness: the amended claim at amount -1. -/
theorem c3_negative_amount_rejected_witness :
    (-1 : ℤ) < 0 ∧ mFix.deposit 1 (-1) = Except.error Err.invalidAmount :=
  ⟨by decide, (c3_negative_amount_rejected mFix 1 (-1) (by decide)).1⟩

/-- C4: a dispute, resolve or chargeback whose tx_id is absent from the history
reports success, leaves the history unchanged and mutates no account: every account
present before is present unchanged after (ensure_account can only add a fresh
default account for the client of the record, with zero balances and unlocked). -/
theorem c4_unknown_reference_is_noop (e : Engine) (tx : Transaction)
    (ht : tx.tx_type = TxType.dispute ∨ tx.tx_type = TxType.resolve ∨
          tx.tx_type = TxType.chargeback)
    (hnone : e.transactions tx.tx_id = none) :
    (e.process tx).2 = Except.ok () ∧
    (e.process tx).1.transactions = e.transactions ∧
    ∀ c acc, e.accounts.accounts c = some acc →
      (e.process tx).1.accounts.accounts c = some acc := by
  rw [process_ref_notfound hnone ht]
  refine ⟨rfl, rfl, ?_⟩
  intro c acc hacc
  exact ensure_account_preserves hacc

/-- C4 witness: disputing an unknown tx id 99 on a concrete engine. -/
theorem c4_unknown_reference_is_noop_witness :
    (Transaction.mk TxType.dispute 1 99 0).tx_type = TxType.dispute ∧
    eFix.transactions 99 = none ∧
    (eFix.process ⟨TxType.dispute, 1, 99, 0⟩).2 = Except.ok () := by
  refine ⟨by decide, by decide, ?_⟩
  exact (c4_unknown_reference_is_noop eFix ⟨TxType.dispute, 1, 99, 0⟩ (Or.inl rfl)
    (by decide)).1

/-- C7: once an account is locked, processing any record whatsoever for that client
returns the engine completely unchanged (no balance change, no lock change, no
history entry) and reports success. -/
theorem c7_locked_account_ignores_all (e : Engine) (tx : Transaction) (acc : Account)
    (hacc : e.accounts.accounts tx.client_id = some acc) (hl : acc.is_locked = true) :
    e.process tx = (e, Except.ok ()) :=
  process_locked hacc hl

/-- C7 witness: a deposit for the locked client 2 is silently ignored. -/
theorem c7_locked_account_ignores_all_witness :
    eFix.accounts.accounts 2 = some accLockedFix ∧ accLockedFix.is_locked = true ∧
    eFix.process ⟨TxType.deposit, 2, 9, 5⟩ = (eFix, Except.ok ()) :=
  ⟨by decide, by decide,
    c7_locked_account_ignores_all eFix ⟨TxType.deposit, 2, 9, 5⟩ accLockedFix
      (by decide) (by decide)⟩

/-- C2 counterexample: a withdrawal from an empty fresh account fails with
insufficient available funds, yet its record is present in the history afterwards,
and a later dispute of that tx_id is dispatched to hold (failing loudly) instead of
being ignored as a not-found reference. -/
theorem c2_counterexample :
    ((Engine.new SimpleManager.new).process ⟨TxType.withdrawal, 1, 7, 5⟩).2 =
        Except.error Err.insufficientAvailable ∧
    ((Engine.new SimpleManager.new).process ⟨TxType.withdrawal, 1, 7, 5⟩).1.transactions 7 =
        some ⟨TxType.withdrawal, 1, 7, 5⟩ ∧
    (((Engine.new SimpleManager.new).process ⟨TxType.withdrawal, 1, 7, 5⟩).1.process
        ⟨TxType.dispute, 1, 7, 0⟩).2 = Except.error Err.insufficientAvailable := by
  refine ⟨by decide, by decide, by decide⟩

/-- C2 (amended): the engine inserts every deposit or withdrawal record processed on
an unlocked account into the history before running the ledger operation, so the
entry for the tx_id of the record is present afterwards whether or not the operation
succeeded; a failed transaction is therefore still referenceable by a later
dispute. -/
theorem c2_attempted_tx_recorded (e : Engine) (tx : Transaction)
    (ht : tx.tx_type = TxType.deposit ∨ tx.tx_type = TxType.withdrawal)
    (hl : (e.accounts.ensure_account tx.client_id).is_locked tx.client_id =
          Except.ok false) :
    (e.process tx).1.transactions tx.tx_id = some tx := by
  unfold Engine.process
  simp only [hl]
  rcases ht with ht | ht <;> simp only [ht] <;> split <;> simp [Engine.recordTx]

/-- C2 witness: a deposit with a negative amount fails, yet is recorded. -/
theorem c2_attempted_tx_recorded_witness :
    ((Engine.new SimpleManager.new).accounts.ensure_account 1).is_locked 1 =
        Except.ok false ∧
    ((Engine.new SimpleManager.new).process ⟨TxType.deposit, 1, 5, -3⟩).1.transactions 5 =
        some ⟨TxType.deposit, 1, 5, -3⟩ :=
  ⟨by decide,
    c2_attempted_tx_recorded (Engine.new SimpleManager.new) ⟨TxType.deposit, 1, 5, -3⟩
      (Or.inl rfl) (by decide)⟩

/-- C10: a deposit or withdrawal record for an unlocked client whose tx_id already
has a history entry silently replaces that entry with the new record (before the
ledger operation runs), and leaves the entry of every other tx_id unchanged; later
references to this tx_id therefore see the client and amount of the most recent record. -/
theorem c10_duplicate_tx_id_replaces (e : Engine) (tx oldTx : Transaction)
    (ht : tx.tx_type = TxType.deposit ∨ tx.tx_type = TxType.withdrawal)
    (_hprev : e.transactions tx.tx_id = some oldTx)
    (hl : (e.accounts.ensure_account tx.client_id).is_locked tx.client_id =
          Except.ok false) :
    (e.process tx).1.transactions tx.tx_id = some tx ∧
    ∀ t, t ≠ tx.tx_id → (e.process tx).1.transactions t = e.transactions t := by
  refine ⟨?_, ?_⟩
  · unfold Engine.process
    simp only [hl]
    rcases ht with ht | ht <;> simp only [ht] <;> split <;> simp [Engine.recordTx]
  · intro t ht2
    unfold Engine.process
    simp only [hl]
    rcases ht with ht | ht <;> simp only [ht] <;> split <;> simp [Engine.recordTx, ht2]

/-- C10 witness: tx 1 is already recorded as a deposit; a withdrawal reusing tx_id 1
overwrites it. -/
theorem c10_duplicate_tx_id_replaces_witness :
    eFix.transactions 1 = some txDepFix ∧
    (eFix.accounts.ensure_account 1).is_locked 1 = Except.ok false ∧
    (eFix.process ⟨TxType.withdrawal, 1, 1, 2⟩).1.transactions 1 =
      some ⟨TxType.withdrawal, 1, 1, 2⟩ :=
  ⟨by decide, by decide,
    (c10_duplicate_tx_id_replaces eFix ⟨TxType.withdrawal, 1, 1, 2⟩ txDepFix
      (Or.inr rfl) (by decide) (by decide)).1⟩

/-- C5: on a chargeback matching a history entry of the same client, the engine runs
withdraw_held with the amount of the original transaction and only then lock.  If the
held withdrawal fails (insufficient held funds or an invalid amount), the result is
an error with the engine completely unchanged, so the account stays unlocked with
its balances intact; if it succeeds, the account ends with the held amount reduced
by the original amount and the locked flag set. -/
theorem c5_chargeback_locks_only_after_withdraw_held (e : Engine) (tx htx : Transaction)
    (acc : Account)
    (ht : tx.tx_type = TxType.chargeback)
    (hfind : e.transactions tx.tx_id = some htx)
    (hcl : htx.client_id = tx.client_id)
    (hacc : e.accounts.accounts tx.client_id = some acc)
    (hl : acc.is_locked = false) :
    ((htx.amount < 0 ∨ acc.held_amount - htx.amount < 0) →
      ∃ err, e.process tx = (e, Except.error err)) ∧
    ((0 ≤ htx.amount ∧ 0 ≤ acc.held_amount - htx.amount) →
      (e.process tx).2 = Except.ok () ∧
      (e.process tx).1.accounts.accounts tx.client_id =
        some { acc with held_amount := acc.held_amount - htx.amount,
                        is_locked := true } ∧
      (e.process tx).1.transactions = e.transactions) := by
  rw [process_chargeback_found hacc hl ht hfind hcl]
  constructor
  · intro hfail
    obtain ⟨err, herr⟩ := withdraw_held_fail hacc hfail
    rw [herr]
    exact ⟨err, rfl⟩
  · rintro ⟨hp, hheld⟩
    simp only [withdraw_held_ok hacc hp hheld,
      lock_ok (updateAccount_self e.accounts tx.client_id
        { acc with held_amount := acc.held_amount - htx.amount })]
    simp [updateAccount_self]

/-- C5 witness: charging back tx 1 (amount 4) against held funds of only 2 fails and
leaves the engine unchanged and the account unlocked. -/
theorem c5_chargeback_locks_only_after_withdraw_held_witness :
    eFix.transactions 1 = some txDepFix ∧
    txDepFix.client_id = 1 ∧
    eFix.accounts.accounts 1 = some accTen ∧
    accTen.is_locked = false ∧
    (txDepFix.amount < 0 ∨ accTen.held_amount - txDepFix.amount < 0) ∧
    ((txDepFix.amount < 0 ∨ accTen.held_amount - txDepFix.amount < 0) →
      ∃ err, eFix.process ⟨TxType.chargeback, 1, 1, 0⟩ = (eFix, Except.error err)) :=
  ⟨by decide, by decide, by decide, by decide, by decide,
    (c5_chargeback_locks_only_after_withdraw_held eFix ⟨TxType.chargeback, 1, 1, 0⟩
      txDepFix accTen rfl (by decide) (by decide) (by decide) (by decide)).1⟩

/-- C6: for a dispute, resolve or chargeback, the amount carried by the record itself
is irrelevant (processing a record with any other amount gives the identical
result), and on a client-matching history hit the engine dispatches hold, release or
withdraw_held-then-lock with the amount stored in the original recorded
transaction. -/
theorem c6_reference_uses_original_amount (e : Engine) (tx htx : Transaction)
    (acc : Account)
    (ht : tx.tx_type = TxType.dispute ∨ tx.tx_type = TxType.resolve ∨
          tx.tx_type = TxType.chargeback)
    (hfind : e.transactions tx.tx_id = some htx)
    (hcl : htx.client_id = tx.client_id)
    (hacc : e.accounts.accounts tx.client_id = some acc)
    (hl : acc.is_locked = false) :
    (∀ a2 : ℤ, e.process { tx with amount := a2 } = e.process tx) ∧
    (tx.tx_type = TxType.dispute →
      e.process tx =
        match e.accounts.hold tx.client_id htx.amount with
        | Except.ok m => (⟨m, e.transactions⟩, Except.ok ())
        | Except.error err => (e, Except.error err)) ∧
    (tx.tx_type = TxType.resolve →
      e.process tx =
        match e.accounts.release tx.client_id htx.amount with
        | Except.ok m => (⟨m, e.transactions⟩, Except.ok ())
        | Except.error err => (e, Except.error err)) ∧
    (tx.tx_type = TxType.chargeback →
      e.process tx =
        match e.accounts.withdraw_held tx.client_id htx.amount with
        | Except.error err => (e, Except.error err)
        | Except.ok m =>
          match m.lock tx.client_id with
          | Except.error err => (⟨m, e.transactions⟩, Except.error err)
          | Except.ok m2 => (⟨m2, e.transactions⟩, Except.ok ())) :=
  ⟨fun a2 => process_amount_irrelevant e tx a2 ht,
   fun htd => process_dispute_found hacc hl htd hfind hcl,
   fun htr => process_resolve_found hacc hl htr hfind hcl,
   fun htc => process_chargeback_found hacc hl htc hfind hcl⟩

/-- C6 witness: disputing tx 1 with a record amount of 999 acts exactly as with
amount 0, and dispatches hold with the original amount. -/
theorem c6_reference_uses_original_amount_witness :
    eFix.transactions 1 = some txDepFix ∧
    eFix.process ⟨TxType.dispute, 1, 1, 999⟩ = eFix.process ⟨TxType.dispute, 1, 1, 0⟩ :=
  ⟨by decide,
    (c6_reference_uses_original_amount eFix ⟨TxType.dispute, 1, 1, 0⟩ txDepFix accTen
      (Or.inl rfl) (by decide) (by decide) (by decide) (by decide)).1 999⟩


/-- C8: if hold succeeds on an account (one with a valid available balance and, as
the invariant of C1 guarantees, a nonnegative held balance), an immediate release of
the same amount succeeds as well and restores every account of the manager, in
particular both balances of the held account, exactly. -/
theorem c8_hold_release_roundtrip (m m2 : SimpleManager) (c : ClientId) (a : ℤ)
    (acc : Account) (hacc : m.accounts c = some acc)
    (hheld0 : 0 ≤ acc.held_amount)
    (havlo : -Dmax ≤ acc.available_amount) (havhi : acc.available_amount ≤ Dmax)
    (h2 : m.hold c a = Except.ok m2) :
    ∃ m3, m2.release c a = Except.ok m3 ∧ ∀ c2, m3.accounts c2 = m.accounts c2 := by
  obtain ⟨hp, acc9, hacc9, hav, hlo, hhi, hm2⟩ := hold_ok_inv h2
  rw [hacc] at hacc9
  injection hacc9 with he
  subst he
  subst hm2
  have hacc2 : (m.updateAccount c
      { acc with available_amount := acc.available_amount - a,
                 held_amount := acc.held_amount + a }).accounts c =
      some { acc with available_amount := acc.available_amount - a,
                      held_amount := acc.held_amount + a } :=
    updateAccount_self m c _
  refine ⟨_, release_ok hacc2 hp (by simp; omega) (by simp; omega) (by simp; omega), ?_⟩
  intro c2
  by_cases hc : c2 = c
  · subst hc
    rw [updateAccount_self, hacc]
    obtain ⟨cid, lk, av, hd⟩ := acc
    simp only [Option.some.injEq, Account.mk.injEq, eq_self_iff_true, true_and, and_true]
    omega
  · rw [updateAccount_other _ _ _ _ hc, updateAccount_other _ _ _ _ hc]

/-- C8 witness: hold 3 then release 3 on an account with available 10, held 2. -/
theorem c8_hold_release_roundtrip_witness :
    mFix.accounts 1 = some accTen ∧ 0 ≤ accTen.held_amount ∧
    mFix.hold 1 3 = Except.ok (mFix.updateAccount 1 ⟨1, false, 7, 5⟩) ∧
    ∃ m3, (mFix.updateAccount 1 ⟨1, false, 7, 5⟩).release 1 3 = Except.ok m3 ∧
      ∀ c2, m3.accounts c2 = mFix.accounts c2 :=
  ⟨by decide, by decide, by rfl,
    c8_hold_release_roundtrip mFix (mFix.updateAccount 1 ⟨1, false, 7, 5⟩) 1 3 accTen
      (by decide) (by decide) (by decide) (by decide) (by rfl)⟩

/-- C9 counterexample: in a reachable state the held balance (1) covers the
recorded amount (1) of deposit tx 1, the account is unlocked and was never
disputed-then-resolved inconsistently, yet resolving tx 1 fails: releasing would
push the available balance (Dmax) past the representable maximum. -/
theorem c9_counterexample :
    c9CexEngine.transactions 1 = some ⟨TxType.deposit, 1, 1, 1⟩ ∧
    (c9CexEngine.accounts.accounts 1).map Account.held_amount = some 1 ∧
    (c9CexEngine.accounts.accounts 1).map Account.is_locked = some false ∧
    (c9CexEngine.process ⟨TxType.resolve, 1, 1, 0⟩).2 = Except.error Err.overflow := by
  refine ⟨by decide, by decide, by decide, by decide⟩

/-- C9 (amended): the engine keeps no per-transaction dispute state: in any engine
state (in particular one where the matched transaction was never disputed), a
resolve or chargeback whose tx_id matches a same-client history entry is dispatched
to release or withdraw_held with the original amount, and succeeds whenever the
original amount is nonnegative, the held balance covers it and (for resolve)
crediting it back to the available balance stays within the representable range --
possibly consuming funds held on behalf of a different transaction. -/
theorem c9_no_per_tx_dispute_state (e : Engine) (tx htx : Transaction) (acc : Account)
    (hfind : e.transactions tx.tx_id = some htx)
    (hcl : htx.client_id = tx.client_id)
    (hacc : e.accounts.accounts tx.client_id = some acc)
    (hl : acc.is_locked = false)
    (hp : 0 ≤ htx.amount) (hcov : htx.amount ≤ acc.held_amount) :
    (tx.tx_type = TxType.resolve →
      -Dmax ≤ acc.available_amount + htx.amount →
      acc.available_amount + htx.amount ≤ Dmax →
      (e.process tx).2 = Except.ok () ∧
      (e.process tx).1.accounts.accounts tx.client_id =
        some { acc with available_amount := acc.available_amount + htx.amount,
                        held_amount := acc.held_amount - htx.amount }) ∧
    (tx.tx_type = TxType.chargeback →
      (e.process tx).2 = Except.ok () ∧
      (e.process tx).1.accounts.accounts tx.client_id =
        some { acc with held_amount := acc.held_amount - htx.amount,
                        is_locked := true }) := by
  constructor
  · intro ht hlo hhi
    rw [process_resolve_found hacc hl ht hfind hcl]
    simp only [release_ok hacc hp (by omega) hlo hhi]
    simp [updateAccount_self]
  · intro ht
    rw [process_chargeback_found hacc hl ht hfind hcl]
    simp only [withdraw_held_ok hacc hp (by omega),
      lock_ok (updateAccount_self e.accounts tx.client_id
        { acc with held_amount := acc.held_amount - htx.amount })]
    simp [updateAccount_self]

/-- C9 witness: resolving the never-disputed deposit tx 2 (amount 2) against held
funds of 2 succeeds. -/
theorem c9_no_per_tx_dispute_state_witness :
    eFix.transactions 2 = some txDepFix2 ∧
    0 ≤ txDepFix2.amount ∧ txDepFix2.amount ≤ accTen.held_amount ∧
    ((⟨TxType.resolve, 1, 2, 0⟩ : Transaction).tx_type = TxType.resolve →
      -Dmax ≤ accTen.available_amount + txDepFix2.amount →
      accTen.available_amount + txDepFix2.amount ≤ Dmax →
      (eFix.process ⟨TxType.resolve, 1, 2, 0⟩).2 = Except.ok () ∧
      (eFix.process ⟨TxType.resolve, 1, 2, 0⟩).1.accounts.accounts 1 =
        some { accTen with
                 available_amount := accTen.available_amount + txDepFix2.amount,
                 held_amount := accTen.held_amount - txDepFix2.amount }) :=
  ⟨by decide, by decide, by decide,
    (c9_no_per_tx_dispute_state eFix ⟨TxType.resolve, 1, 2, 0⟩ txDepFix2 accTen
      (by decide) (by decide) (by decide) (by decide) (by decide) (by decide)).1⟩
